import Mathlib

/-!
# GLGrassRenderer: the host program `src/main.cpp`

A shallow embedding of the host side of the grass renderer: the `Blade`
record and its upload to the vertex buffer, the vertex attribute layout
declared with `glVertexAttribPointer`, the per-frame loop `App::run`, the
GLFW callbacks and `main`.

Float values are carried as the rationals they denote (`ℚ`); where only storage is
concerned the component type is left generic.  The frame clock is narrowed to `float` and
subtracted in `float`, with round-to-nearest-even to binary32 (`toFloat32`); the aspect
quotient and the pointer deltas are computed exactly.  The collaborators that are
not part of `main.cpp` (`Camera`, `ShaderProgram`, `Model`, the `glm`
matrix functions) are taken as parameters.
-/

namespace GLGrass

/-! ## Blade record and vertex buffer -/

/-- Four-component vector `glm::vec4` over a component type `F`. -/
structure Vec4 (F : Type) where
  x : F
  y : F
  z : F
  w : F
deriving DecidableEq, Repr

/-- Record `struct Blade`: the four vectors in declaration order. -/
structure Blade (F : Type) where
  v0 : Vec4 F
  v1 : Vec4 F
  v2 : Vec4 F
  up : Vec4 F
deriving DecidableEq, Repr

/-- Constructor `Blade::Blade(iv0, iv1, iv2, iup) : v0{iv0}, v1{iv1}, v2{iv2}, up{iup}`. -/
def Blade.ctor {F : Type} (iv0 iv1 iv2 iup : Vec4 F) : Blade F :=
  { v0 := iv0, v1 := iv1, v2 := iv2, up := iup }

/-- Component `c` of a vector (`0 ↦ x`, `1 ↦ y`, `2 ↦ z`, `3 ↦ w`). -/
def Vec4.comp {F : Type} (v : Vec4 F) : Fin 4 → F
  | 0 => v.x
  | 1 => v.y
  | 2 => v.z
  | 3 => v.w

/-- Field number `k` of a blade in declaration order. -/
def Blade.field {F : Type} (b : Blade F) : Fin 4 → Vec4 F
  | 0 => b.v0
  | 1 => b.v1
  | 2 => b.v2
  | 3 => b.up

/-- Size in bytes of `float`. -/
def sizeofFloat : Nat := 4

/-- Size in bytes of `glm::vec4`: four floats. -/
def sizeofVec4 : Nat := 4 * sizeofFloat

/-- Size in bytes of `Blade`: four `vec4` members, no padding. -/
def sizeofBlade : Nat := 4 * sizeofVec4

/-- In-memory image of a vector: its four floats. -/
def Vec4.floats {F : Type} (v : Vec4 F) : List F := [v.x, v.y, v.z, v.w]

/-- In-memory image of a blade: sixteen floats, members in declaration order. -/
def Blade.floats {F : Type} (b : Blade F) : List F :=
  b.v0.floats ++ b.v1.floats ++ b.v2.floats ++ b.up.floats

/-- Contents of `blades.data()`: the records laid out one after another. -/
def bladesData {F : Type} : List (Blade F) → List F
  | [] => []
  | b :: bs => b.floats ++ bladesData bs

/-- Buffer object: its size in bytes and the floats it holds. -/
structure Buffer (F : Type) where
  size : Nat
  data : List F

/-- Upload `glBufferData(GL_ARRAY_BUFFER, blades.size() * sizeof(Blade), blades.data(), GL_STATIC_DRAW)`. -/
def glBufferData {F : Type} (blades : List (Blade F)) : Buffer F :=
  { size := blades.length * sizeofBlade, data := bladesData blades }

/-- Float stored at an aligned byte offset inside the buffer, if there is one. -/
def Buffer.floatAt {F : Type} (buf : Buffer F) (byteOffset : Nat) : Option F :=
  if byteOffset % sizeofFloat = 0 ∧ byteOffset + sizeofFloat ≤ buf.size then
    buf.data.get? (byteOffset / sizeofFloat)
  else none

/-- Arguments of one `glVertexAttribPointer(index, size, GL_FLOAT, GL_FALSE, stride, pointer)` call. -/
structure VertexAttrib where
  index : Nat
  size : Nat
  stride : Nat
  pointer : Nat
deriving DecidableEq, Repr

/-- The four attribute declarations of `App::App` for the grass vertex array. -/
def grassAttrib : Fin 4 → VertexAttrib
  | 0 => { index := 0, size := 4, stride := sizeofBlade, pointer := 0 }
  | 1 => { index := 1, size := 4, stride := sizeofBlade, pointer := 4 * sizeofFloat }
  | 2 => { index := 2, size := 4, stride := sizeofBlade, pointer := 8 * sizeofFloat }
  | 3 => { index := 3, size := 4, stride := sizeofBlade, pointer := 12 * sizeofFloat }

/-- First byte fetched for attribute `a` of the vertex with index `vertex`. -/
def VertexAttrib.start (a : VertexAttrib) (vertex : Nat) : Nat :=
  vertex * a.stride + a.pointer

/-- Number of bytes fetched for attribute `a`: `size` floats. -/
def VertexAttrib.bytes (a : VertexAttrib) : Nat := a.size * sizeofFloat

/-- The attribute fetch of vertex `vertex` for `a` stays inside bytes `[lo, hi)`. -/
def VertexAttrib.fetchWithin (a : VertexAttrib) (vertex lo hi : Nat) : Prop :=
  lo ≤ a.start vertex ∧ a.start vertex + a.bytes ≤ hi

instance (a : VertexAttrib) (vertex lo hi : Nat) : Decidable (a.fetchWithin vertex lo hi) := by
  unfold VertexAttrib.fetchWithin; infer_instance

/-- Vertex `vertex` reads record `j` of the buffer: the record lies inside the buffer and
each attribute fetch of the vertex lies inside the bytes of that record. -/
def readsRecord {F : Type} (buf : Buffer F) (vertex j : Nat) : Prop :=
  (j + 1) * sizeofBlade ≤ buf.size ∧
    ∀ k : Fin 4, (grassAttrib k).fetchWithin vertex (j * sizeofBlade) ((j + 1) * sizeofBlade)

instance {F : Type} (buf : Buffer F) (vertex j : Nat) : Decidable (readsRecord buf vertex j) := by
  unfold readsRecord; infer_instance

/-- Arguments of a `glDrawArrays(mode, first, count)` call with `mode = GL_PATCHES`. -/
structure DrawArrays where
  first : Nat
  count : Nat
deriving DecidableEq, Repr

/-- The grass draw call of `App::run`: `glDrawArrays(GL_PATCHES, 0, 3)`. -/
def grassDraw : DrawArrays := { first := 0, count := 3 }

/-- Vertex indices submitted by a draw call: `first ≤ v < first + count`. -/
def DrawArrays.covers (d : DrawArrays) (v : Nat) : Prop :=
  d.first ≤ v ∧ v < d.first + d.count

instance (d : DrawArrays) (v : Nat) : Decidable (d.covers v) := by
  unfold DrawArrays.covers; infer_instance

/-- Exact value of the `float` nearest to the literal `0.1` (bits `0x3DCCCCCD`). -/
def float_0_1 : ℚ := 13421773 / 134217728

/-- Exact value of the `float` nearest to the literal `0.01` (bits `0x3C23D70A`). -/
def float_0_01 : ℚ := 10737418 / 1073741824

/-- The vector `blades` built in `App::App`: one `emplace_back`. -/
def blades : List (Blade ℚ) :=
  [Blade.ctor ⟨0, 0, 0, 1⟩ ⟨0, float_0_1, 0, float_0_1⟩
    ⟨-float_0_1, float_0_1, 0, float_0_01⟩ ⟨0, 1, 0, 1⟩]

/-- Exact value of the `float` literal `0.2f` (bits `0x3E4CCCCD`). -/
def float_0_2 : ℚ := 13421773 / 67108864

/-- Exact value of the `float` literal `0.3f` (bits `0x3E99999A`). -/
def float_0_3 : ℚ := 10066330 / 33554432

/-! ## Collaborators of `main.cpp` -/

/-- Enumeration `Camera::Movement`. -/
inductive Movement where
  | forward
  | backward
  | left
  | right
deriving DecidableEq, Repr

/-- A call made by `main.cpp` on the camera, with its arguments. -/
inductive CamCall where
  | move (direction : Movement) (deltaTime : ℚ)
  | mouse_movement (xoffset yoffset : ℚ)
  | mouse_scroll (yoffset : ℚ)
deriving DecidableEq, Repr

/-- The parts of `camera.hpp` and `glm` that `main.cpp` calls, taken as parameters:
`Cam` is the camera state, `Mat` the type `glm::mat4`. -/
structure Collab (Cam Mat : Type) where
  /-- Constructor `Camera{glm::vec3(x, y, z)}`. -/
  camera : ℚ → ℚ → ℚ → Cam
  /-- Effect of a mutating call on the camera. -/
  call : Cam → CamCall → Cam
  /-- Getter `Camera::zoom()`. -/
  zoom : Cam → ℚ
  /-- Getter `Camera::viewMatrix()`. -/
  viewMatrix : Cam → Mat
  /-- Function `glm::radians`. -/
  radians : ℚ → ℚ
  /-- Function `glm::perspective(fovy, aspect, near, far)`. -/
  perspective : ℚ → ℚ → ℚ → ℚ → Mat
  /-- Constructor `glm::mat4(d)`. -/
  mat4 : ℚ → Mat
  /-- Function `glm::scale(m, glm::vec3(x, y, z))`. -/
  scale : Mat → ℚ → ℚ → ℚ → Mat

/-- An exception that reaches the handlers of `main`: one derived from
`std::exception` carrying `what()`, or anything else. -/
inductive Exn where
  | std (what : String)
  | other
deriving DecidableEq, Repr

/-! ## Application state -/

/-- Function-local statics of `mouse_callback`. -/
structure MouseStatics where
  firstMouse : Bool
  lastX : ℚ
  lastY : ℚ
deriving DecidableEq, Repr

/-- Members of `class App` read or written by the code below, together with the
window and GL state that code touches and the statics of `mouse_callback`
(`none` until the first call initialises them). -/
structure App (Cam : Type) where
  width_ : Int
  height_ : Int
  camera_ : Cam
  deltaTime_ : ℚ
  lastFrame : ℚ
  /-- Flag read by `glfwWindowShouldClose`. -/
  shouldClose : Bool
  /-- Last arguments of `glViewport`. -/
  viewport : Int × Int × Int × Int
  /-- Buffer attached to `grass_vao_`. -/
  grass_vbo : Buffer ℚ
  mouseStatics : Option MouseStatics

/-- Perform a camera call: update `camera_` and append the call to the list of calls made. -/
def cameraCall {Cam Mat : Type} (E : Collab Cam Mat) (r : App Cam × List CamCall)
    (c : CamCall) : App Cam × List CamCall :=
  ({ r.1 with camera_ := E.call r.1.camera_ c }, r.2 ++ [c])

/-- Results of `glfwGetKey(window, KEY) == GLFW_PRESS` for the keys that `processInput` asks about. -/
structure Keys where
  escape : Bool
  w : Bool
  s : Bool
  a : Bool
  d : Bool
deriving DecidableEq, Repr

/-- Function `processInput`: returns the new state and the camera calls it made. -/
def processInput {Cam Mat : Type} (E : Collab Cam Mat) (app : App Cam) (keys : Keys) :
    App Cam × List CamCall :=
  let deltaTime := app.deltaTime_
  let app := if keys.escape then { app with shouldClose := true } else app
  let r : App Cam × List CamCall := (app, [])
  let r := if keys.w then cameraCall E r (.move .forward deltaTime) else r
  let r := if keys.s then cameraCall E r (.move .backward deltaTime) else r
  let r := if keys.a then cameraCall E r (.move .left deltaTime) else r
  let r := if keys.d then cameraCall E r (.move .right deltaTime) else r
  r

/-- Function `framebuffer_size_callback`: `glViewport(0, 0, width, height)`. -/
def framebuffer_size_callback {Cam : Type} (app : App Cam) (width height : Int) : App Cam :=
  { app with viewport := (0, 0, width, height) }

/-- Function `mouse_callback`: returns the new state and the camera call it made. -/
def mouse_callback {Cam Mat : Type} (E : Collab Cam Mat) (app : App Cam) (xpos ypos : ℚ) :
    App Cam × List CamCall :=
  let width := app.width_
  let height := app.height_
  let st : MouseStatics := match app.mouseStatics with
    | some st => st
    | none => { firstMouse := true, lastX := (width : ℚ) / 2, lastY := (height : ℚ) / 2 }
  let st : MouseStatics :=
    if st.firstMouse then { firstMouse := false, lastX := xpos, lastY := ypos } else st
  let xoffset := xpos - st.lastX
  let yoffset := st.lastY - ypos
  let st : MouseStatics := { st with lastX := xpos, lastY := ypos }
  cameraCall E ({ app with mouseStatics := some st }, []) (.mouse_movement xoffset yoffset)

/-- Function `scroll_callback`: returns the new state and the camera call it made. -/
def scroll_callback {Cam Mat : Type} (E : Collab Cam Mat) (app : App Cam) (_xoffset yoffset : ℚ) :
    App Cam × List CamCall :=
  cameraCall E (app, []) (.mouse_scroll yoffset)

/-- An event dispatched by `glfwPollEvents`: one of the three registered callbacks, or the
user asking to close the window (GLFW then sets the should-close flag). -/
inductive Event where
  | framebufferSize (width height : Int)
  | cursorPos (xpos ypos : ℚ)
  | scroll (xoffset yoffset : ℚ)
  | closeRequested
deriving DecidableEq, Repr

/-- Dispatch one event. -/
def dispatch {Cam Mat : Type} (E : Collab Cam Mat) (app : App Cam) : Event → App Cam × List CamCall
  | .framebufferSize width height => (framebuffer_size_callback app width height, [])
  | .cursorPos xpos ypos => mouse_callback E app xpos ypos
  | .scroll xoffset yoffset => scroll_callback E app xoffset yoffset
  | .closeRequested => ({ app with shouldClose := true }, [])

/-- Call `glfwPollEvents()`: dispatch the pending events in order. -/
def glfwPollEvents {Cam Mat : Type} (E : Collab Cam Mat) :
    App Cam → List Event → App Cam × List CamCall
  | app, [] => (app, [])
  | app, e :: es =>
    let r := dispatch E app e
    let r2 := glfwPollEvents E r.1 es
    (r2.1, r.2 ++ r2.2)

/-! ## The frame loop -/

/-- The two shader programs `land_shader_` and `grass_shader_`. -/
inductive Pipeline where
  | land
  | grass
deriving DecidableEq, Repr

/-- The rendering calls of one iteration of `App::run`, in program order. -/
inductive GLCmd (Mat : Type) where
  | clearColor (r g b a : ℚ)
  | clear
  | use (p : Pipeline)
  | setMat4 (p : Pipeline) (name : String) (m : Mat)
  /-- Call `land_->render()`. -/
  | landRender
  /-- Call `glBindVertexArray(grass_vao_)`. -/
  | bindGrassVao
  /-- Call `glDrawArrays(GL_PATCHES, first, count)`. -/
  | drawPatches (d : DrawArrays)
  | swapBuffers
deriving DecidableEq, Repr

/-- Aspect ratio `static_cast<float>(width_) / static_cast<float>(height_)`. -/
def aspect {Cam : Type} (app : App Cam) : ℚ := (app.width_ : ℚ) / (app.height_ : ℚ)

/-- Local `projection` of `App::run`. -/
def projection {Cam Mat : Type} (E : Collab Cam Mat) (app : App Cam) : Mat :=
  E.perspective (E.radians (E.zoom app.camera_)) (aspect app) float_0_1 100

/-- Local `view` of `App::run`. -/
def view {Cam Mat : Type} (E : Collab Cam Mat) (app : App Cam) : Mat :=
  E.viewMatrix app.camera_

/-- Local `model` of `App::run`. -/
def model {Cam Mat : Type} (E : Collab Cam Mat) : Mat :=
  E.scale (E.mat4 1) 2 2 2

/-- The ground part of an iteration: from `land_shader_.use()` to `land_->render()`. -/
def renderLand {Cam Mat : Type} (E : Collab Cam Mat) (app : App Cam) : List (GLCmd Mat) :=
  [.use .land, .setMat4 .land "proj" (projection E app), .setMat4 .land "view" (view E app),
    .setMat4 .land "model" (model E), .landRender]

/-- The grass part of an iteration: from `grass_shader_.use()` to `glDrawArrays`. -/
def renderGrass {Cam Mat : Type} (E : Collab Cam Mat) (app : App Cam) : List (GLCmd Mat) :=
  [.use .grass, .setMat4 .grass "model" (model E), .setMat4 .grass "view" (view E app),
    .setMat4 .grass "proj" (projection E app), .bindGrassVao, .drawPatches grassDraw]

/-- The rendering section of an iteration, from `glClearColor` to `glfwSwapBuffers`. -/
def render {Cam Mat : Type} (E : Collab Cam Mat) (app : App Cam) : List (GLCmd Mat) :=
  [.clearColor float_0_2 float_0_3 float_0_3 1, .clear] ++ renderLand E app ++
    renderGrass E app ++ [.swapBuffers]

/-- What the environment supplies to one iteration: the value of `glfwGetTime()`, the key
states, an exception raised by a collaborator before anything is drawn (if any), and the
events dispatched by `glfwPollEvents()`. -/
structure FrameInput where
  now : ℚ
  keys : Keys
  fault : Option Exn
  events : List Event
deriving DecidableEq, Repr

/-- What one completed iteration did. -/
structure FrameRecord (Mat : Type) where
  /-- Value of `deltaTime_` computed at the top of the iteration. -/
  deltaTime : ℚ
  /-- Camera calls made by `processInput`. -/
  inputCalls : List CamCall
  /-- Rendering calls. -/
  gl : List (GLCmd Mat)
  /-- Camera calls made by callbacks during `glfwPollEvents`. -/
  eventCalls : List CamCall
deriving DecidableEq, Repr

/-- Round to the nearest integer, ties to the even one. -/
def roundHalfEven (m : ℚ) : ℤ :=
  if m - ⌊m⌋ < 1 / 2 then ⌊m⌋
  else if 1 / 2 < m - ⌊m⌋ then ⌊m⌋ + 1
  else if ⌊m⌋ % 2 = 0 then ⌊m⌋ else ⌊m⌋ + 1

/-- Spacing of binary32 values around a positive `x`: `2 ^ (e - 23)` where
`2 ^ e ≤ x < 2 ^ (e + 1)`, with `e` not below the least normal exponent `-126`. -/
def ulp32 (x : ℚ) : ℚ := (2 : ℚ) ^ (max (Int.log 2 x) (-126) - 23)

/-- The binary32 value nearest to a non-negative `x`, ties to even. -/
def roundMagnitude32 (x : ℚ) : ℚ := (roundHalfEven (x / ulp32 x) : ℚ) * ulp32 x

/-- Conversion to `float` and rounding of a `float` operation: the nearest binary32 value,
ties to even, in either sign.  Magnitudes of `2 ^ 128` and more, where a `float` holds an
infinity, are outside what the clock of the frame loop produces. -/
def toFloat32 (x : ℚ) : ℚ :=
  if 0 ≤ x then roundMagnitude32 x else -roundMagnitude32 (-x)

/-- First statements of the loop body, given the `double` that `glfwGetTime()` returned:
`float currentFrame = glfwGetTime(); deltaTime_ = currentFrame - lastFrame;
lastFrame = currentFrame;`. -/
def tick {Cam : Type} (app : App Cam) (now : ℚ) : App Cam :=
  { app with
    deltaTime_ := toFloat32 (toFloat32 now - app.lastFrame)
    lastFrame := toFloat32 now }

/-- One iteration of the loop of `App::run` that runs to its end. -/
def frame {Cam Mat : Type} (E : Collab Cam Mat) (app : App Cam) (inp : FrameInput) :
    App Cam × FrameRecord Mat :=
  let app := tick app inp.now
  let r := processInput E app inp.keys
  let gl := render E r.1
  let p := glfwPollEvents E r.1 inp.events
  (p.1, { deltaTime := app.deltaTime_, inputCalls := r.2, gl := gl, eventCalls := p.2 })

/-- How a run over a finite list of inputs ends: the loop condition saw the should-close
flag, an exception left the loop, or the inputs ran out with the window still open. -/
inductive RunEnd where
  | closed
  | thrown (e : Exn)
  | pending
deriving DecidableEq, Repr

/-- Outcome of `App::run`. -/
structure RunResult (Cam Mat : Type) where
  final : App Cam
  frames : List (FrameRecord Mat)
  ending : RunEnd

/-- Method `App::run`: `while (!glfwWindowShouldClose(window_)) { ... }`. -/
def App.run {Cam Mat : Type} (E : Collab Cam Mat) : App Cam → List FrameInput → RunResult Cam Mat
  | app, [] => { final := app, frames := [], ending := if app.shouldClose then .closed else .pending }
  | app, inp :: rest =>
    if app.shouldClose then { final := app, frames := [], ending := .closed }
    else
      match inp.fault with
      | some e => { final := tick app inp.now, frames := [], ending := .thrown e }
      | none =>
        let r := frame E app inp
        let res := App.run E r.1 rest
        { res with frames := r.2 :: res.frames }

/-! ## Construction and `main` -/

/-- What the environment does during a whole execution. -/
structure Env where
  /-- Whether `glfwCreateWindow` returns a window. -/
  window : Bool
  /-- Whether `gladLoadGLLoader` succeeds. -/
  glad : Bool
  /-- Exception thrown by the rest of the constructor (`Model`, `ShaderBuilder`), if any. -/
  setupFault : Option Exn
  frames : List FrameInput
deriving DecidableEq, Repr

/-- Outcome of the constructor `App::App`. -/
inductive Constructed (Cam : Type) where
  /-- Call `std::exit(code)` after printing `err` to `stderr`. -/
  | exit (code : Int) (err : List String)
  | thrown (e : Exn)
  | ok (app : App Cam)

/-- The object a successful construction leaves: the constructor arguments, the default
member initialisers, the fresh window and the uploaded blades. -/
def initialApp {Cam Mat : Type} (E : Collab Cam Mat) (width height : Int) : App Cam :=
  { width_ := width, height_ := height, camera_ := E.camera 0 1 6,
    deltaTime_ := 0, lastFrame := 0, shouldClose := false,
    viewport := (0, 0, width, height), grass_vbo := glBufferData blades,
    mouseStatics := none }

/-- Constructor `App::App(width, height, title)`. -/
def App.ctor {Cam Mat : Type} (E : Collab Cam Mat) (width height : Int) (env : Env) :
    Constructed Cam :=
  if !env.window then .exit 1 ["Failed to create GLFW window\n"]
  else if !env.glad then .exit 1 ["Failed to initialize GLAD\n"]
  else
    match env.setupFault with
    | some e => .thrown e
    | none =>
      .ok (initialApp E width height)

/-- Observable behaviour of the process: exit status (`none` while still running), the text
written to `stderr`, and the frames completed. -/
structure Process (Mat : Type) where
  status : Option Int
  err : List String
  frames : List (FrameRecord Mat)
deriving DecidableEq, Repr

/-- The two handlers of the function-try-block of `main`: print, then flow off the end of
`main`, which returns 0. -/
def handler {Mat : Type} (frames : List (FrameRecord Mat)) : Exn → Process Mat
  | .std what => { status := some 0, err := ["Error: " ++ what ++ "\n"], frames := frames }
  | .other => { status := some 0, err := ["Unknown exception!\n"], frames := frames }

/-- Function `main`. -/
def main {Cam Mat : Type} (E : Collab Cam Mat) (env : Env) : Process Mat :=
  match App.ctor E 1920 1080 env with
  | .exit code err => { status := some code, err := err, frames := [] }
  | .thrown e => handler [] e
  | .ok app =>
    let r := App.run E app env.frames
    match r.ending with
    | .closed => { status := some 0, err := [], frames := r.frames }
    | .thrown e => handler r.frames e
    | .pending => { status := none, err := [], frames := r.frames }

/-! ## Observations on traces -/

/-- Values written to uniform `name` of pipeline `p` by a list of rendering calls. -/
def written {Mat : Type} (p : Pipeline) (name : String) : List (GLCmd Mat) → List Mat
  | [] => []
  | .setMat4 q n m :: rest =>
    if q = p ∧ n = name then m :: written p name rest else written p name rest
  | _ :: rest => written p name rest

/-- The patch draw calls in a list of rendering calls, in order. -/
def patchDraws {Mat : Type} : List (GLCmd Mat) → List DrawArrays
  | [] => []
  | .drawPatches d :: rest => d :: patchDraws rest
  | _ :: rest => patchDraws rest

/-- Number of whole `Blade` records a buffer holds. -/
def Buffer.records {F : Type} (buf : Buffer F) : Nat := buf.size / sizeofBlade

/-- Elapsed values passed to `Camera::move` in a list of camera calls. -/
def moveElapsed : List CamCall → List ℚ
  | [] => []
  | .move _ dt :: rest => dt :: moveElapsed rest
  | _ :: rest => moveElapsed rest

/-- Look deltas passed to `Camera::mouse_movement` in a list of camera calls. -/
def lookDeltas : List CamCall → List (ℚ × ℚ)
  | [] => []
  | .mouse_movement dx dy :: rest => (dx, dy) :: lookDeltas rest
  | _ :: rest => lookDeltas rest

/-- Timestamp number `k`: `t 0 = 0` is the initial `lastFrame`, and `t k` for `k ≥ 1` is the
`double` that `glfwGetTime()` returns in iteration `k`. -/
def timestamp (inputs : List FrameInput) (k : Nat) : ℚ :=
  (0 :: inputs.map (fun inp => inp.now)).getD k 0

/-- Calls of `mouse_callback` for a sequence of pointer positions, one after another:
the final state and the camera calls made. -/
def mouseEvents {Cam Mat : Type} (E : Collab Cam Mat) :
    App Cam → List (ℚ × ℚ) → App Cam × List CamCall
  | app, [] => (app, [])
  | app, p :: ps =>
    let r := mouse_callback E app p.1 p.2
    let r2 := mouseEvents E r.1 ps
    (r2.1, r.2 ++ r2.2)

/-- Componentwise sum of a list of look deltas. -/
def sumDeltas : List (ℚ × ℚ) → ℚ × ℚ
  | [] => (0, 0)
  | d :: ds => (d.1 + (sumDeltas ds).1, d.2 + (sumDeltas ds).2)

/-- State of the application right after the `processInput` call of iteration `k`
(counting from 0) of a run over `inputs`. -/
def stateAfterInput {Cam Mat : Type} (E : Collab Cam Mat) (app : App Cam)
    (inputs : List FrameInput) (k : Nat) : App Cam :=
  match inputs[k]? with
  | some inp => (processInput E (tick (App.run E app (inputs.take k)).final inp.now) inp.keys).1
  | none => app

/-! ## A concrete collaborator

A camera that remembers its start position and the calls it received, and matrices that
remember how they were built.  It is used to evaluate the program on concrete inputs. -/

/-- Matrix expressions. -/
inductive Sym where
  | viewOf (x y z : ℚ) (calls : List CamCall)
  | persp (fovy aspect near far : ℚ)
  | diag (d : ℚ)
  | scaled (m : Sym) (x y z : ℚ)
deriving DecidableEq, Repr

/-- Camera state of the concrete collaborator. -/
structure RecCam where
  x : ℚ
  y : ℚ
  z : ℚ
  calls : List CamCall
deriving DecidableEq, Repr

/-- The concrete collaborator. -/
def recording : Collab RecCam Sym :=
  { camera := fun x y z => { x := x, y := y, z := z, calls := [] }
    call := fun c k => { c with calls := c.calls ++ [k] }
    zoom := fun _ => 45
    viewMatrix := fun c => .viewOf c.x c.y c.z c.calls
    radians := fun d => d * (355 / 113) / 180
    perspective := .persp
    mat4 := .diag
    scale := .scaled }

/-- Look deltas between consecutive pointer positions, starting from `last`:
`(x - last.x, last.y - y)` for the first position `(x, y)`, and so on. -/
def stepDeltas (last : ℚ × ℚ) : List (ℚ × ℚ) → List (ℚ × ℚ)
  | [] => []
  | p :: ps => (p.1 - last.1, last.2 - p.2) :: stepDeltas p ps

/-- The program's initial state with the concrete collaborator. -/
def sampleApp : App RecCam := initialApp recording 1920 1080

/-- No key pressed. -/
def noKeys : Keys := { escape := false, w := false, s := false, a := false, d := false }

/-- An iteration at time 1 with the `W` key down and no event. -/
def forwardInput : FrameInput :=
  { now := 1, keys := { noKeys with w := true }, fault := none, events := [] }

/-- An iteration at time 1 during which the framebuffer is resized to 800 by 800. -/
def resizeInput : FrameInput :=
  { now := 1, keys := noKeys, fault := none, events := [.framebufferSize 800 800] }

/-- An iteration at time 2 with no key down and no event. -/
def idleInput : FrameInput :=
  { now := 2, keys := noKeys, fault := none, events := [] }

/-- An iteration with the `W` key down when the clock reads 16777217 seconds. -/
def lateInput : FrameInput :=
  { now := 16777217, keys := { noKeys with w := true }, fault := none, events := [] }

/-- An iteration with the `W` key down when the clock reads 16777218 seconds. -/
def laterInput : FrameInput :=
  { now := 16777218, keys := { noKeys with w := true }, fault := none, events := [] }

/-- An environment in which the window and GL load succeed and the rest of the
constructor throws `e`. -/
def throwingEnv (e : Exn) (frames : List FrameInput) : Env :=
  { window := true, glad := true, setupFault := some e, frames := frames }

/-! ## Lemmas on the buffer layout -/

theorem Blade.floats_length {F : Type} (b : Blade F) : b.floats.length = 16 := rfl

theorem bladesData_length {F : Type} (bs : List (Blade F)) :
    (bladesData bs).length = 16 * bs.length := by
  induction bs with
  | nil => rfl
  | cons b bs ih => simp [bladesData, ih, Blade.floats_length]; ring

theorem bladesData_get? {F : Type} (bs : List (Blade F)) (i : Nat) (hi : i < bs.length)
    (j : Nat) (hj : j < 16) :
    (bladesData bs).get? (16 * i + j) = (bs.get ⟨i, hi⟩).floats.get? j := by
  induction bs generalizing i with
  | nil => simp at hi
  | cons b bs ih =>
    cases i with
    | zero =>
      simp only [bladesData, Nat.mul_zero, Nat.zero_add, List.get_eq_getElem,
        List.getElem_cons_zero, List.get?_eq_getElem?]
      rw [List.getElem?_append_left (by rw [Blade.floats_length]; exact hj)]
    | succ i =>
      have hi2 : i < bs.length := by simpa using hi
      have h := ih i hi2
      simp only [bladesData, List.get?_eq_getElem?, List.get_eq_getElem,
        List.getElem_cons_succ] at h ⊢
      rw [List.getElem?_append_right (by rw [Blade.floats_length]; omega)]
      rw [Blade.floats_length]
      have : 16 * (i + 1) + j - 16 = 16 * i + j := by omega
      rw [this]; exact h


theorem floatAt_record {F : Type} (bs : List (Blade F)) (i : Nat) (hi : i < bs.length)
    (j : Nat) (hj : j < 16) :
    (glBufferData bs).floatAt (i * sizeofBlade + sizeofFloat * j) =
      (bs.get ⟨i, hi⟩).floats.get? j := by
  unfold Buffer.floatAt glBufferData
  have h64 : sizeofBlade = 64 := rfl
  have h4 : sizeofFloat = 4 := rfl
  simp only [h64, h4]
  have hc : (i * 64 + 4 * j) % 4 = 0 ∧ i * 64 + 4 * j + 4 ≤ bs.length * 64 := by
    constructor <;> omega
  rw [if_pos hc]
  have hd : (i * 64 + 4 * j) / 4 = 16 * i + j := by omega
  rw [hd]
  exact bladesData_get? bs i hi j hj

/-! ## Lemmas on rounding to `float` -/

theorem roundHalfEven_intCast (n : ℤ) : roundHalfEven (n : ℚ) = n := by
  simp [roundHalfEven]

theorem roundHalfEven_bounds (m : ℚ) :
    ⌊m⌋ ≤ roundHalfEven m ∧ roundHalfEven m ≤ ⌊m⌋ + 1 := by
  unfold roundHalfEven
  split_ifs <;> constructor <;> omega

theorem roundHalfEven_mono {a b : ℚ} (h : a ≤ b) : roundHalfEven a ≤ roundHalfEven b := by
  have hf : ⌊a⌋ ≤ ⌊b⌋ := Int.floor_mono h
  rcases lt_or_eq_of_le hf with hlt | heq
  · have h1 := (roundHalfEven_bounds a).2
    have h2 := (roundHalfEven_bounds b).1
    omega
  · have hr : a - ⌊a⌋ ≤ b - ⌊b⌋ := by rw [heq]; linarith
    unfold roundHalfEven
    rw [heq] at hr ⊢
    split_ifs <;> first | omega | (exfalso; linarith)

theorem roundHalfEven_nonneg {a : ℚ} (h : 0 ≤ a) : 0 ≤ roundHalfEven a := by
  have := roundHalfEven_mono h
  simpa [roundHalfEven] using this

theorem roundHalfEven_of_lt (m : ℚ) (n : ℤ) (h1 : (n : ℚ) - 1 / 2 < m) (h2 : m < n + 1 / 2) :
    roundHalfEven m = n := by
  by_cases hm : (n : ℚ) ≤ m
  · have hf : ⌊m⌋ = n := by
      rw [Int.floor_eq_iff]; constructor <;> linarith
    unfold roundHalfEven
    rw [hf, if_pos (by linarith)]
  · have hf : ⌊m⌋ = n - 1 := by
      rw [Int.floor_eq_iff]; push_cast; constructor <;> linarith
    unfold roundHalfEven
    rw [hf]
    push_cast
    rw [if_neg (by linarith), if_pos (by linarith)]
    ring

theorem roundHalfEven_tie_even (n : ℤ) (hn : n % 2 = 0) :
    roundHalfEven ((n : ℚ) + 1 / 2) = n := by
  have hf : ⌊(n : ℚ) + 1 / 2⌋ = n := by
    rw [Int.floor_eq_iff]; constructor <;> linarith
  unfold roundHalfEven
  rw [hf]
  simp [hn]

theorem ulp32_pos (x : ℚ) : 0 < ulp32 x := by
  unfold ulp32; positivity

theorem log_eq_of_bounds (x : ℚ) (e : ℤ) (h1 : (2 : ℚ) ^ e ≤ x) (h2 : x < (2 : ℚ) ^ (e + 1)) :
    Int.log 2 x = e := by
  have hx : 0 < x := lt_of_lt_of_le (by positivity) h1
  have ha : e ≤ Int.log 2 x := (Int.zpow_le_iff_le_log (by norm_num) hx).mp h1
  have hb : Int.log 2 x < e + 1 := (Int.lt_zpow_iff_log_lt (by norm_num) hx).mp h2
  omega

theorem ulp32_eq (x : ℚ) (e : ℤ) (h1 : (2 : ℚ) ^ e ≤ x) (h2 : x < (2 : ℚ) ^ (e + 1))
    (he : -126 ≤ e) : ulp32 x = (2 : ℚ) ^ (e - 23) := by
  unfold ulp32
  rw [log_eq_of_bounds x e h1 h2, max_eq_left he]

theorem toFloat32_zero : toFloat32 0 = 0 := by
  simp [toFloat32, roundMagnitude32, roundHalfEven]

theorem roundMagnitude32_nonneg {x : ℚ} (h : 0 ≤ x) : 0 ≤ roundMagnitude32 x := by
  unfold roundMagnitude32
  have h1 : 0 ≤ x / ulp32 x := div_nonneg h (ulp32_pos x).le
  have h2 := roundHalfEven_nonneg h1
  have h3 : (0 : ℚ) ≤ roundHalfEven (x / ulp32 x) := by exact_mod_cast h2
  exact mul_nonneg h3 (ulp32_pos x).le

theorem toFloat32_nonneg {x : ℚ} (h : 0 ≤ x) : 0 ≤ toFloat32 x := by
  unfold toFloat32; rw [if_pos h]; exact roundMagnitude32_nonneg h

theorem pow24_mul_ulp (e : ℤ) : (16777216 : ℚ) * (2 : ℚ) ^ (e - 23) = (2 : ℚ) ^ (e + 1) := by
  have h : (16777216 : ℚ) = (2 : ℚ) ^ (24 : ℤ) := by norm_num
  rw [h, ← zpow_add₀ (by norm_num : (2 : ℚ) ≠ 0)]
  congr 1; ring

theorem pow23_mul_ulp (e : ℤ) : (8388608 : ℚ) * (2 : ℚ) ^ (e - 23) = (2 : ℚ) ^ e := by
  have h : (8388608 : ℚ) = (2 : ℚ) ^ (23 : ℤ) := by norm_num
  rw [h, ← zpow_add₀ (by norm_num : (2 : ℚ) ≠ 0)]
  congr 1; ring

/-- Upper bound of a binade: a positive value rounds to at most the next power of two. -/
theorem roundMagnitude32_le_binade (x : ℚ) :
    roundMagnitude32 x ≤ (2 : ℚ) ^ (max (Int.log 2 x) (-126) + 1) := by
  unfold roundMagnitude32 ulp32
  set e := max (Int.log 2 x) (-126) with he
  have hq : (0 : ℚ) < (2 : ℚ) ^ (e - 23) := by positivity
  have hlt : x < (2 : ℚ) ^ (e + 1) := by
    have h1 : x < ((2 : ℕ) : ℚ) ^ (Int.log 2 x + 1) := Int.lt_zpow_succ_log_self (by norm_num) x
    have h2 : ((2 : ℕ) : ℚ) ^ (Int.log 2 x + 1) ≤ (2 : ℚ) ^ (e + 1) := by
      have : Int.log 2 x + 1 ≤ e + 1 := by
        have := le_max_left (Int.log 2 x) (-126); omega
      exact_mod_cast zpow_le_zpow_right₀ (by norm_num : (1 : ℚ) ≤ 2) this
    exact lt_of_lt_of_le h1 h2
  have hm : x / (2 : ℚ) ^ (e - 23) ≤ ((16777216 : ℤ) : ℚ) := by
    rw [div_le_iff₀ hq]
    rw [Int.cast_ofNat, pow24_mul_ulp]; exact hlt.le
  have hr := roundHalfEven_mono hm
  rw [roundHalfEven_intCast] at hr
  have hr2 : (roundHalfEven (x / (2 : ℚ) ^ (e - 23)) : ℚ) ≤ ((16777216 : ℤ) : ℚ) := by
    exact_mod_cast hr
  calc (roundHalfEven (x / (2 : ℚ) ^ (e - 23)) : ℚ) * (2 : ℚ) ^ (e - 23)
      ≤ ((16777216 : ℤ) : ℚ) * (2 : ℚ) ^ (e - 23) := mul_le_mul_of_nonneg_right hr2 hq.le
    _ = (2 : ℚ) ^ (e + 1) := by rw [Int.cast_ofNat, pow24_mul_ulp]

/-- Lower bound of a binade: a normal value rounds to at least its leading power of two. -/
theorem binade_le_roundMagnitude32 {y : ℚ} (hy : 0 < y) (hn : -126 ≤ Int.log 2 y) :
    (2 : ℚ) ^ (Int.log 2 y) ≤ roundMagnitude32 y := by
  unfold roundMagnitude32 ulp32
  rw [max_eq_left hn]
  set e := Int.log 2 y with he
  have hq : (0 : ℚ) < (2 : ℚ) ^ (e - 23) := by positivity
  have hle : (2 : ℚ) ^ e ≤ y := by
    have := Int.zpow_log_le_self (b := 2) (by norm_num) hy
    exact_mod_cast this
  have hmul : ((8388608 : ℤ) : ℚ) * (2 : ℚ) ^ (e - 23) = (2 : ℚ) ^ e := by
    rw [Int.cast_ofNat, pow23_mul_ulp]
  have hm : ((8388608 : ℤ) : ℚ) ≤ y / (2 : ℚ) ^ (e - 23) := by
    rw [le_div_iff₀ hq, hmul]; exact hle
  have hr := roundHalfEven_mono hm
  rw [roundHalfEven_intCast] at hr
  have hr2 : ((8388608 : ℤ) : ℚ) ≤ (roundHalfEven (y / (2 : ℚ) ^ (e - 23)) : ℚ) := by
    exact_mod_cast hr
  calc (2 : ℚ) ^ e = ((8388608 : ℤ) : ℚ) * (2 : ℚ) ^ (e - 23) := hmul.symm
    _ ≤ (roundHalfEven (y / (2 : ℚ) ^ (e - 23)) : ℚ) * (2 : ℚ) ^ (e - 23) :=
      mul_le_mul_of_nonneg_right hr2 hq.le

/-- Rounding to `float` is monotone on non-negative values. -/
theorem toFloat32_mono {x y : ℚ} (hx : 0 ≤ x) (hxy : x ≤ y) : toFloat32 x ≤ toFloat32 y := by
  have hy : 0 ≤ y := le_trans hx hxy
  rcases eq_or_lt_of_le hx with h0 | hpos
  · rw [← h0, toFloat32_zero]; exact toFloat32_nonneg hy
  have hypos : 0 < y := lt_of_lt_of_le hpos hxy
  unfold toFloat32
  rw [if_pos hx, if_pos hy]
  have hlog : Int.log 2 x ≤ Int.log 2 y := Int.log_mono_right hpos hxy
  have hE : max (Int.log 2 x) (-126) ≤ max (Int.log 2 y) (-126) := max_le_max hlog le_rfl
  rcases eq_or_lt_of_le hE with heq | hlt
  · unfold roundMagnitude32 ulp32
    rw [heq]
    have hq : (0 : ℚ) < (2 : ℚ) ^ (max (Int.log 2 y) (-126) - 23) := by positivity
    have hm := roundHalfEven_mono (div_le_div_of_nonneg_right hxy hq.le)
    have hm2 : (roundHalfEven (x / (2 : ℚ) ^ (max (Int.log 2 y) (-126) - 23)) : ℚ) ≤
        (roundHalfEven (y / (2 : ℚ) ^ (max (Int.log 2 y) (-126) - 23)) : ℚ) := by
      exact_mod_cast hm
    exact mul_le_mul_of_nonneg_right hm2 hq.le
  · have hn : -126 ≤ Int.log 2 y := by
      by_contra hc
      have : max (Int.log 2 y) (-126) = -126 := max_eq_right (by omega)
      have h2 := le_max_right (Int.log 2 x) (-126)
      omega
    have hEy : max (Int.log 2 y) (-126) = Int.log 2 y := max_eq_left hn
    have h1 := roundMagnitude32_le_binade x
    have h2 := binade_le_roundMagnitude32 hypos hn
    have h3 : (2 : ℚ) ^ (max (Int.log 2 x) (-126) + 1) ≤ (2 : ℚ) ^ (Int.log 2 y) :=
      zpow_le_zpow_right₀ (by norm_num) (by omega)
    linarith

/-- A non-negative value that is a whole multiple of the spacing of its binade is a `float`
value: rounding leaves it unchanged. -/
theorem toFloat32_exact (x : ℚ) (e : ℤ) (n : ℤ) (h1 : (2 : ℚ) ^ e ≤ x)
    (h2 : x < (2 : ℚ) ^ (e + 1)) (he : -126 ≤ e) (hn : x = n * (2 : ℚ) ^ (e - 23)) :
    toFloat32 x = x := by
  have hx : 0 ≤ x := le_trans (by positivity) h1
  unfold toFloat32 roundMagnitude32
  rw [if_pos hx, ulp32_eq x e h1 h2 he]
  have hq : (2 : ℚ) ^ (e - 23) ≠ 0 := by positivity
  have : x / (2 : ℚ) ^ (e - 23) = (n : ℚ) := by
    rw [hn]; field_simp
  rw [this, roundHalfEven_intCast]
  exact hn.symm

theorem toFloat32_one : toFloat32 1 = 1 :=
  toFloat32_exact 1 0 8388608 (by norm_num) (by norm_num) (by norm_num) (by norm_num)

theorem toFloat32_two : toFloat32 2 = 2 :=
  toFloat32_exact 2 1 8388608 (by norm_num) (by norm_num) (by norm_num) (by norm_num)

theorem toFloat32_16777216 : toFloat32 16777216 = 16777216 :=
  toFloat32_exact _ 24 8388608 (by norm_num) (by norm_num) (by norm_num) (by norm_num)

theorem toFloat32_16777218 : toFloat32 16777218 = 16777218 :=
  toFloat32_exact _ 24 8388609 (by norm_num) (by norm_num) (by norm_num) (by norm_num)

/-- The clock value 16777217 lies halfway between two `float` values and rounds to the
even one, 16777216. -/
theorem toFloat32_16777217 : toFloat32 16777217 = 16777216 := by
  unfold toFloat32 roundMagnitude32
  rw [if_pos (by norm_num), ulp32_eq 16777217 24 (by norm_num) (by norm_num) (by norm_num)]
  have h : (16777217 : ℚ) / 2 ^ ((24 : ℤ) - 23) = ((8388608 : ℤ) : ℚ) + 1 / 2 := by norm_num
  rw [h, roundHalfEven_tie_even _ (by norm_num)]
  norm_num

/-! ## Blade records -/

/-- C5: upload followed by attribute fetch is a round trip on each blade.  For every blade
list, every record index `i`, attribute location `k` and component `c`, the float at byte
offset `i * sizeof(Blade) + offset_k + 4 * c` of the uploaded buffer is component `c` of
field `k` of `blades[i]`; the four attribute ranges are pairwise disjoint and together
cover the 64 bytes of a record; the stiffness `up.w` is component 3 of attribute 3. -/
theorem upload_fetch_roundtrip {F : Type} (bs : List (Blade F)) (i : Nat)
    (hi : i < bs.length) (k c : Fin 4) :
    (glBufferData bs).floatAt (i * sizeofBlade + (grassAttrib k).pointer + sizeofFloat * c) =
        some (((bs.get ⟨i, hi⟩).field k).comp c) ∧
      (∀ k1 k2 : Fin 4, k1 ≠ k2 →
        (grassAttrib k1).pointer + (grassAttrib k1).bytes ≤ (grassAttrib k2).pointer ∨
        (grassAttrib k2).pointer + (grassAttrib k2).bytes ≤ (grassAttrib k1).pointer) ∧
      (∀ b : Nat, b < sizeofBlade → ∃ k1 : Fin 4,
        (grassAttrib k1).pointer ≤ b ∧ b < (grassAttrib k1).pointer + (grassAttrib k1).bytes) ∧
      sizeofBlade = 64 ∧
      (glBufferData bs).floatAt (i * sizeofBlade + (grassAttrib 3).pointer + sizeofFloat * 3) =
        some (bs.get ⟨i, hi⟩).up.w := by
  have key : ∀ k c : Fin 4,
      (glBufferData bs).floatAt (i * sizeofBlade + (grassAttrib k).pointer + sizeofFloat * c) =
        some (((bs.get ⟨i, hi⟩).field k).comp c) := by
    intro k c
    have hp : (grassAttrib k).pointer = sizeofFloat * (4 * k.val) := by
      fin_cases k <;> rfl
    have hj : 4 * k.val + c.val < 16 := by omega
    have h := floatAt_record bs i hi (4 * k.val + c.val) hj
    rw [hp, Nat.add_assoc, ← Nat.mul_add, h]
    fin_cases k <;> fin_cases c <;> rfl
  refine ⟨key k c, ?_, ?_, rfl, key 3 3⟩
  · decide
  · intro b hb
    have h64 : sizeofBlade = 64 := rfl
    rw [h64] at hb
    by_cases h1 : b < 16
    · exact ⟨0, by simp [grassAttrib, VertexAttrib.bytes, sizeofFloat]; omega⟩
    · by_cases h2 : b < 32
      · exact ⟨1, by simp [grassAttrib, VertexAttrib.bytes, sizeofFloat]; omega⟩
      · by_cases h3 : b < 48
        · exact ⟨2, by simp [grassAttrib, VertexAttrib.bytes, sizeofFloat]; omega⟩
        · exact ⟨3, by simp [grassAttrib, VertexAttrib.bytes, sizeofFloat]; omega⟩

/-- Witness for `upload_fetch_roundtrip`: the program's own blade list, record 0,
attribute 3, component 3. -/
theorem upload_fetch_roundtrip_witness :
    0 < blades.length ∧
      (glBufferData blades).floatAt (0 * sizeofBlade + (grassAttrib 3).pointer + sizeofFloat * 3) =
        some (1 : ℚ) :=
  ⟨by decide, (upload_fetch_roundtrip blades 0 (by decide) 3 3).2.2.2.2⟩

/-- C6: every blade the program constructs and uploads has `v0.w = 1`, and the constructor
stores its four arguments unchanged in `v0`, `v1`, `v2`, `up`. -/
theorem constructed_blades_v0_w (b : Blade ℚ) (hb : b ∈ blades) :
    b.v0.w = 1 ∧
      ∀ (F : Type) (iv0 iv1 iv2 iup : Vec4 F),
        (Blade.ctor iv0 iv1 iv2 iup).v0 = iv0 ∧ (Blade.ctor iv0 iv1 iv2 iup).v1 = iv1 ∧
        (Blade.ctor iv0 iv1 iv2 iup).v2 = iv2 ∧ (Blade.ctor iv0 iv1 iv2 iup).up = iup := by
  constructor
  · simp only [blades, List.mem_singleton] at hb
    subst hb
    rfl
  · intro F iv0 iv1 iv2 iup
    exact ⟨rfl, rfl, rfl, rfl⟩

/-- Witness for `constructed_blades_v0_w`: the blade built in `App::App`. -/
theorem constructed_blades_v0_w_witness :
    (Blade.ctor (⟨0, 0, 0, 1⟩ : Vec4 ℚ) ⟨0, float_0_1, 0, float_0_1⟩
      ⟨-float_0_1, float_0_1, 0, float_0_01⟩ ⟨0, 1, 0, 1⟩).v0.w = 1 :=
  (constructed_blades_v0_w _ (List.mem_singleton.mpr rfl)).1

/-! ## The grass draw call -/

/-- C2, evaluated on the code: in the reference configuration the buffer holds 64 bytes, the
draw submits vertex 1, and the fetch of attribute 0 for vertex 1 starts at byte 64, outside
the buffer; of the three vertices only vertex 0 fetches inside record 0. -/
theorem patch_vertex_fetch_outside_buffer :
    (glBufferData blades).size = 64 ∧ grassDraw.covers 1 ∧ (grassAttrib 0).start 1 = 64 ∧
      (grassAttrib 0).fetchWithin 1 0 (glBufferData blades).size = False ∧
      (∀ v : Nat, grassDraw.covers v → ∀ k : Fin 4,
        ((grassAttrib k).fetchWithin v 0 (glBufferData blades).size ↔ v = 0)) := by
  refine ⟨rfl, by decide, rfl, ?_, ?_⟩
  · simp [VertexAttrib.fetchWithin, VertexAttrib.start, VertexAttrib.bytes, grassAttrib,
      glBufferData, blades, sizeofBlade, sizeofVec4, sizeofFloat]
  · intro v _ k
    fin_cases k <;>
      simp [VertexAttrib.fetchWithin, VertexAttrib.start, VertexAttrib.bytes, grassAttrib,
        glBufferData, blades, sizeofBlade, sizeofVec4, sizeofFloat] <;> omega

/-! ## Lemmas on the callbacks and the loop -/

theorem processInput_fst {Cam Mat : Type} (E : Collab Cam Mat) (app : App Cam) (keys : Keys) :
    ∃ cam : Cam, ∃ b : Bool,
      (processInput E app keys).1 = { app with camera_ := cam, shouldClose := b } := by
  obtain ⟨e, w, s, a, d⟩ := keys
  cases e <;> cases w <;> cases s <;> cases a <;> cases d <;>
    exact ⟨_, _, rfl⟩

/-- The camera calls of `processInput`: one `move` for each of `W`, `S`, `A`, `D` that is
down, in that order, each with the current `deltaTime_`. -/
theorem processInput_calls {Cam Mat : Type} (E : Collab Cam Mat) (app : App Cam) (keys : Keys) :
    (processInput E app keys).2 =
      (if keys.w then [CamCall.move .forward app.deltaTime_] else []) ++
      (if keys.s then [CamCall.move .backward app.deltaTime_] else []) ++
      (if keys.a then [CamCall.move .left app.deltaTime_] else []) ++
      (if keys.d then [CamCall.move .right app.deltaTime_] else []) := by
  obtain ⟨e, w, s, a, d⟩ := keys
  cases e <;> cases w <;> cases s <;> cases a <;> cases d <;> rfl

theorem processInput_moves {Cam Mat : Type} (E : Collab Cam Mat) (app : App Cam) (keys : Keys)
    (dt : ℚ) (h : dt ∈ moveElapsed (processInput E app keys).2) : dt = app.deltaTime_ := by
  obtain ⟨e, w, s, a, d⟩ := keys
  cases e <;> cases w <;> cases s <;> cases a <;> cases d <;>
    simp [processInput, cameraCall, moveElapsed] at h <;> simp [h]

theorem dispatch_fst {Cam Mat : Type} (E : Collab Cam Mat) (app : App Cam) (e : Event) :
    ∃ cam : Cam, ∃ b : Bool, ∃ vp : Int × Int × Int × Int, ∃ ms : Option MouseStatics,
      (dispatch E app e).1 =
        { app with camera_ := cam, shouldClose := b, viewport := vp, mouseStatics := ms } := by
  cases e <;> exact ⟨_, _, _, _, rfl⟩

theorem glfwPollEvents_fst {Cam Mat : Type} (E : Collab Cam Mat) (es : List Event) :
    ∀ app : App Cam,
      ∃ cam : Cam, ∃ b : Bool, ∃ vp : Int × Int × Int × Int, ∃ ms : Option MouseStatics,
        (glfwPollEvents E app es).1 =
          { app with camera_ := cam, shouldClose := b, viewport := vp, mouseStatics := ms } := by
  induction es with
  | nil => intro app; exact ⟨_, _, _, _, rfl⟩
  | cons e es ih =>
    intro app
    obtain ⟨c1, b1, v1, m1, h1⟩ := dispatch_fst E app e
    obtain ⟨c2, b2, v2, m2, h2⟩ := ih (dispatch E app e).1
    refine ⟨c2, b2, v2, m2, ?_⟩
    simp only [glfwPollEvents]
    rw [h2, h1]

/-- One iteration leaves `lastFrame` at the `float` of the timestamp it read and keeps the
window size members and the grass buffer. -/
theorem frame_fst {Cam Mat : Type} (E : Collab Cam Mat) (app : App Cam) (inp : FrameInput) :
    (frame E app inp).1.lastFrame = toFloat32 inp.now ∧
      (frame E app inp).1.width_ = app.width_ ∧
      (frame E app inp).1.height_ = app.height_ ∧
      (frame E app inp).1.grass_vbo = app.grass_vbo := by
  obtain ⟨c1, b1, h1⟩ := processInput_fst E (tick app inp.now) inp.keys
  obtain ⟨c2, b2, v2, m2, h2⟩ :=
    glfwPollEvents_fst E inp.events (processInput E (tick app inp.now) inp.keys).1
  simp only [frame]
  rw [h2, h1]
  exact ⟨rfl, rfl, rfl, rfl⟩

theorem run_cons_step {Cam Mat : Type} (E : Collab Cam Mat) (app : App Cam) (inp : FrameInput)
    (rest : List FrameInput) (hc : app.shouldClose = false) (hf : inp.fault = none) :
    App.run E app (inp :: rest) =
      { App.run E (frame E app inp).1 rest with
        frames := (frame E app inp).2 :: (App.run E (frame E app inp).1 rest).frames } := by
  simp [App.run, hc, hf]

theorem run_cons_frames {Cam Mat : Type} (E : Collab Cam Mat) (app : App Cam) (inp : FrameInput)
    (rest : List FrameInput) :
    (App.run E app (inp :: rest)).frames = [] ∨
      (app.shouldClose = false ∧ inp.fault = none ∧
        (App.run E app (inp :: rest)).frames =
          (frame E app inp).2 :: (App.run E (frame E app inp).1 rest).frames) := by
  by_cases hc : app.shouldClose = true
  · left; simp [App.run, hc]
  · have hc2 : app.shouldClose = false := by simpa using hc
    rcases Option.eq_none_or_eq_some inp.fault with hf | ⟨e, hf⟩
    · right; exact ⟨hc2, hf, by rw [run_cons_step E app inp rest hc2 hf]⟩
    · left; simp [App.run, hc2, hf]

/-- The record of iteration `k` is the one `frame` produces from the state the first `k`
iterations leave and input `k`. -/
theorem run_frames_getElem? {Cam Mat : Type} (E : Collab Cam Mat) (inputs : List FrameInput) :
    ∀ (app : App Cam) (k : Nat) (r : FrameRecord Mat),
      (App.run E app inputs).frames[k]? = some r →
      ∃ inp, inputs[k]? = some inp ∧
        r = (frame E (App.run E app (inputs.take k)).final inp).2 := by
  induction inputs with
  | nil => intro app k r h; simp [App.run] at h
  | cons inp rest ih =>
    intro app k r h
    rcases run_cons_frames E app inp rest with h0 | ⟨hc, hf, hfr⟩
    · rw [h0] at h; simp at h
    · rw [hfr] at h
      cases k with
      | zero =>
        simp only [List.getElem?_cons_zero, Option.some.injEq] at h
        refine ⟨inp, by simp, ?_⟩
        simp [App.run, h]
      | succ k =>
        simp only [List.getElem?_cons_succ] at h
        obtain ⟨inp2, hi, hr⟩ := ih _ k r h
        refine ⟨inp2, by simpa using hi, ?_⟩
        rw [List.take_succ_cons, run_cons_step E app inp _ hc hf]
        exact hr


theorem run_final_grass_vbo {Cam Mat : Type} (E : Collab Cam Mat) (inputs : List FrameInput) :
    ∀ app : App Cam, (App.run E app inputs).final.grass_vbo = app.grass_vbo := by
  induction inputs with
  | nil => intro app; simp [App.run]
  | cons inp rest ih =>
    intro app
    by_cases hc : app.shouldClose = true
    · simp [App.run, hc]
    · have hc2 : app.shouldClose = false := by simpa using hc
      rcases Option.eq_none_or_eq_some inp.fault with hf | ⟨e, hf⟩
      · rw [run_cons_step E app inp rest hc2 hf]
        simp only []
        rw [ih]
        exact (frame_fst E app inp).2.2.2
      · simp [App.run, hc2, hf, tick]

/-- Every state a run reaches from the constructed application still holds the buffer the
constructor uploaded: the one blade of `blades`, 64 bytes. -/
theorem run_keeps_uploaded_blades {Cam Mat : Type} (E : Collab Cam Mat) (width height : Int)
    (inputs : List FrameInput) :
    (App.run E (initialApp E width height) inputs).final.grass_vbo = glBufferData blades := by
  rw [run_final_grass_vbo]; rfl

/-! ## The grass draw call in a run -/

/-- C8: in every iteration of `App::run` the model, view and projection written to the grass
pipeline are the ones written to the ground pipeline, each written once, and they are
computed from the state right after that iteration's `processInput` call:
`view = camera.viewMatrix()` and
`projection = perspective(radians(camera.zoom()), width / height, 0.1, 100.0)`. -/
theorem frame_matrices_shared {Cam Mat : Type} (E : Collab Cam Mat) (app : App Cam)
    (inputs : List FrameInput) (k : Nat) (r : FrameRecord Mat)
    (h : (App.run E app inputs).frames[k]? = some r) :
    written .land "model" r.gl = [E.scale (E.mat4 1) 2 2 2] ∧
      written .grass "model" r.gl = written .land "model" r.gl ∧
      written .land "view" r.gl = [E.viewMatrix (stateAfterInput E app inputs k).camera_] ∧
      written .grass "view" r.gl = written .land "view" r.gl ∧
      written .land "proj" r.gl =
        [E.perspective (E.radians (E.zoom (stateAfterInput E app inputs k).camera_))
          (((stateAfterInput E app inputs k).width_ : ℚ) /
            ((stateAfterInput E app inputs k).height_ : ℚ)) float_0_1 100] ∧
      written .grass "proj" r.gl = written .land "proj" r.gl := by
  obtain ⟨inp, hi, hr⟩ := run_frames_getElem? E inputs app k r h
  subst hr
  simp [stateAfterInput, hi, frame, render, renderLand, renderGrass, written, projection, view,
    model, aspect]

/-- Witness for `frame_matrices_shared`: the first iteration from the initial state, `W` down. -/
theorem frame_matrices_shared_witness :
    (App.run recording sampleApp [forwardInput]).frames[0]? =
        some (frame recording sampleApp forwardInput).2 ∧
      written .grass "view" (frame recording sampleApp forwardInput).2.gl =
        written .land "view" (frame recording sampleApp forwardInput).2.gl :=
  ⟨by simp [App.run, sampleApp, initialApp, forwardInput],
    (frame_matrices_shared recording sampleApp [forwardInput] 0 _
      (by simp [App.run, sampleApp, initialApp, forwardInput])).2.2.2.1⟩

/-- The resize hook changes the viewport and nothing the projection is computed from. -/
theorem framebuffer_size_callback_aspect {Cam : Type} (app : App Cam) (width height : Int) :
    (framebuffer_size_callback app width height).viewport = (0, 0, width, height) ∧
      aspect (framebuffer_size_callback app width height) = aspect app :=
  ⟨rfl, rfl⟩

/-- C4, evaluated on the code: start at 1920 by 1080, resize the framebuffer to 800 by 800
during the first iteration; the viewport becomes 800 by 800, but the projection written in
the next iteration is still built with aspect ratio 1920 / 1080 = 16 / 9, not 800 / 800. -/
theorem resize_keeps_initial_aspect :
    (App.run recording sampleApp [resizeInput, idleInput]).final.viewport = (0, 0, 800, 800) ∧
      ((App.run recording sampleApp [resizeInput, idleInput]).frames.map
          (fun r => written .grass "proj" r.gl)) =
        [[Sym.persp (recording.radians 45) (16 / 9) float_0_1 100],
         [Sym.persp (recording.radians 45) (16 / 9) float_0_1 100]] ∧
      (16 / 9 : ℚ) ≠ 800 / 800 := by
  refine ⟨?_, ?_, by norm_num⟩
  · simp [App.run, frame, sampleApp, initialApp, resizeInput, idleInput, noKeys, tick, processInput,
      glfwPollEvents, dispatch, framebuffer_size_callback]
  · simp [App.run, frame, sampleApp, initialApp, resizeInput, idleInput, noKeys, tick, processInput,
      glfwPollEvents, dispatch, framebuffer_size_callback, render, renderLand, renderGrass,
      written, projection, aspect, recording]
    norm_num

/-! ## Exit status -/

/-- C7, evaluated on the code: when the window cannot be created or GL cannot be loaded the
status is 1 with a diagnostic and no frame; when an exception leaves the constructor, the
handler in `main` prints a diagnostic and `main` then returns 0. -/
theorem main_status_after_exception {Cam Mat : Type} (E : Collab Cam Mat) (what : String)
    (frames : List FrameInput) (env : Env) :
    (main E (throwingEnv (.std what) frames) : Process Mat) =
        { status := some 0, err := ["Error: " ++ what ++ "\n"], frames := [] } ∧
      (main E (throwingEnv .other frames) : Process Mat) =
        { status := some 0, err := ["Unknown exception!\n"], frames := [] } ∧
      (main E { env with window := false } : Process Mat) =
        { status := some 1, err := ["Failed to create GLFW window\n"], frames := [] } ∧
      (main E { env with window := true, glad := false } : Process Mat) =
        { status := some 1, err := ["Failed to initialize GLAD\n"], frames := [] } := by
  refine ⟨rfl, rfl, ?_, ?_⟩ <;> simp [main, App.ctor]


/-! ## Elapsed time -/

theorem run_frames_length {Cam Mat : Type} (E : Collab Cam Mat) (inputs : List FrameInput) :
    ∀ app : App Cam, (App.run E app inputs).frames.length ≤ inputs.length := by
  induction inputs with
  | nil => intro app; simp [App.run]
  | cons inp rest ih =>
    intro app
    rcases run_cons_frames E app inp rest with h0 | ⟨_, _, hfr⟩
    · rw [h0]; simp
    · rw [hfr]; simpa using ih _

theorem run_deltaTime {Cam Mat : Type} (E : Collab Cam Mat) (inputs : List FrameInput) :
    ∀ (app : App Cam) (k : Nat) (r : FrameRecord Mat),
      (App.run E app inputs).frames[k]? = some r →
      r.deltaTime =
          toFloat32
            ((app.lastFrame :: inputs.map (fun inp => toFloat32 inp.now)).getD (k + 1) 0 -
              (app.lastFrame :: inputs.map (fun inp => toFloat32 inp.now)).getD k 0) ∧
        ∀ dt ∈ moveElapsed r.inputCalls, dt = r.deltaTime := by
  induction inputs with
  | nil => intro app k r h; simp [App.run] at h
  | cons inp rest ih =>
    intro app k r h
    rcases run_cons_frames E app inp rest with h0 | ⟨_, _, hfr⟩
    · rw [h0] at h; simp at h
    · rw [hfr] at h
      cases k with
      | zero =>
        simp only [List.getElem?_cons_zero, Option.some.injEq] at h
        subst h
        refine ⟨by simp [frame, tick], ?_⟩
        intro dt hdt
        exact processInput_moves E (tick app inp.now) inp.keys dt hdt
      | succ k =>
        simp only [List.getElem?_cons_succ] at h
        have h2 := ih _ k r h
        rw [(frame_fst E app inp).1] at h2
        simpa using h2

theorem floatTimes_getD (l : List FrameInput) :
    ∀ j : Nat, (l.map (fun inp => toFloat32 inp.now)).getD j 0 =
      toFloat32 ((l.map (fun inp => inp.now)).getD j 0) := by
  induction l with
  | nil => intro j; simp [toFloat32_zero]
  | cons a l ih =>
    intro j
    cases j with
    | zero => simp
    | succ j => simpa using ih j

theorem floatTimes_timestamp (inputs : List FrameInput) (j : Nat) :
    ((0 : ℚ) :: inputs.map (fun inp => toFloat32 inp.now)).getD j 0 =
      toFloat32 (timestamp inputs j) := by
  unfold timestamp
  cases j with
  | zero => simp [toFloat32_zero]
  | succ j => simpa using floatTimes_getD inputs j

/-- A list whose entry `k` is `t (k + 1) - t k` sums to `t n - t 0`, `n` its length. -/
theorem sum_of_differences (l : List ℚ) :
    ∀ t : Nat → ℚ, (∀ (k : Nat) (a : ℚ), l[k]? = some a → a = t (k + 1) - t k) →
      l.sum = t l.length - t 0 := by
  induction l with
  | nil => intro t _; simp
  | cons a l ih =>
    intro t h
    have h0 := h 0 a (by simp)
    have h1 := ih (fun k => t (k + 1)) (fun k b hb => h (k + 1) b (by simpa using hb))
    simp only [List.sum_cons, List.length_cons, h1, h0]
    ring

theorem timestamp_nonneg (inputs : List FrameInput) (n : Nat)
    (hmono : ∀ k : Nat, k < n → timestamp inputs k ≤ timestamp inputs (k + 1)) :
    ∀ k : Nat, k ≤ n → 0 ≤ timestamp inputs k := by
  intro k
  induction k with
  | zero => intro _; simp [timestamp]
  | succ k ih =>
    intro hk
    exact le_trans (ih (by omega)) (hmono k (by omega))

/-- C9 as stated fails: when the clock reads 16777217 and then 16777218 seconds, the elapsed
times passed to `Camera::move` are 16777216 and 2, not the differences 16777217 and 1 of the
clock values. -/
theorem elapsed_differs_from_timestamp_difference :
    ((App.run recording sampleApp [lateInput, laterInput]).frames.map
        (fun r => moveElapsed r.inputCalls)) = [[16777216], [2]] ∧
      timestamp [lateInput, laterInput] 1 - timestamp [lateInput, laterInput] 0 = 16777217 ∧
      timestamp [lateInput, laterInput] 2 - timestamp [lateInput, laterInput] 1 = 1 ∧
      (16777216 : ℚ) ≠ 16777217 ∧ (2 : ℚ) ≠ 1 := by
  refine ⟨?_, ?_, ?_, by norm_num, by norm_num⟩
  · have h2 : (16777218 : ℚ) - 16777216 = 2 := by norm_num
    simp [App.run, frame, sampleApp, initialApp, lateInput, laterInput, noKeys, tick,
      processInput, cameraCall, moveElapsed, glfwPollEvents, toFloat32_16777217,
      toFloat32_16777216, toFloat32_16777218, h2, toFloat32_two]
  · simp [timestamp, lateInput, laterInput]
  · simp [timestamp, lateInput, laterInput]; norm_num

/-- C9, amended: with `t 0 = 0` the initial `lastFrame` and `t k` the clock value of iteration
`k`, the elapsed time of iteration `k`, which is the value passed to every `Camera::move`
call that `processInput` makes in that iteration, is the `float` difference of the clock
values narrowed to `float`: `fl (fl (t k) - fl (t (k - 1)))`.  It is exactly
`t k - t (k - 1)` when `t (k - 1)`, `t k` and their difference are `float` values; when that
holds for all `n` iterations run, the elapsed values sum to `t n`.  Each elapsed value is
non-negative when `t 0 ≤ t 1 ≤ ... ≤ t n`. -/
theorem elapsed_is_float_difference {Cam Mat : Type} (E : Collab Cam Mat)
    (width height : Int) (inputs : List FrameInput) :
    (App.run E (initialApp E width height) inputs).frames.length ≤ inputs.length ∧
      (∀ (k : Nat) (r : FrameRecord Mat),
        (App.run E (initialApp E width height) inputs).frames[k]? = some r →
          r.deltaTime =
              toFloat32 (toFloat32 (timestamp inputs (k + 1)) - toFloat32 (timestamp inputs k)) ∧
            (∀ dt ∈ moveElapsed r.inputCalls, dt = r.deltaTime) ∧
            (toFloat32 (timestamp inputs k) = timestamp inputs k →
              toFloat32 (timestamp inputs (k + 1)) = timestamp inputs (k + 1) →
              toFloat32 (timestamp inputs (k + 1) - timestamp inputs k) =
                timestamp inputs (k + 1) - timestamp inputs k →
              r.deltaTime = timestamp inputs (k + 1) - timestamp inputs k)) ∧
      ((∀ k : Nat, k < (App.run E (initialApp E width height) inputs).frames.length →
          toFloat32 (timestamp inputs (k + 1)) = timestamp inputs (k + 1) ∧
          toFloat32 (timestamp inputs (k + 1) - timestamp inputs k) =
            timestamp inputs (k + 1) - timestamp inputs k) →
        ((App.run E (initialApp E width height) inputs).frames.map (fun r => r.deltaTime)).sum =
          timestamp inputs (App.run E (initialApp E width height) inputs).frames.length) ∧
      ((∀ k : Nat, k < (App.run E (initialApp E width height) inputs).frames.length →
          timestamp inputs k ≤ timestamp inputs (k + 1)) →
        ∀ r ∈ (App.run E (initialApp E width height) inputs).frames, 0 ≤ r.deltaTime) := by
  have h0 : (initialApp E width height).lastFrame = 0 := rfl
  have key : ∀ (k : Nat) (r : FrameRecord Mat),
      (App.run E (initialApp E width height) inputs).frames[k]? = some r →
        r.deltaTime =
            toFloat32 (toFloat32 (timestamp inputs (k + 1)) - toFloat32 (timestamp inputs k)) ∧
          ∀ dt ∈ moveElapsed r.inputCalls, dt = r.deltaTime := by
    intro k r h
    have := run_deltaTime E inputs (initialApp E width height) k r h
    rw [h0, floatTimes_timestamp, floatTimes_timestamp] at this
    exact this
  have t0 : timestamp inputs 0 = 0 := by simp [timestamp]
  refine ⟨run_frames_length E inputs _, ?_, ?_, ?_⟩
  · intro k r h
    obtain ⟨h1, h2⟩ := key k r h
    refine ⟨h1, h2, ?_⟩
    intro e1 e2 e3
    rw [h1, e1, e2, e3]
  · intro hex
    have hfl : ∀ k : Nat, k ≤ (App.run E (initialApp E width height) inputs).frames.length →
        toFloat32 (timestamp inputs k) = timestamp inputs k := by
      intro k hk
      cases k with
      | zero => rw [t0, toFloat32_zero]
      | succ k => exact (hex k (by omega)).1
    have hs := sum_of_differences
      ((App.run E (initialApp E width height) inputs).frames.map (fun r => r.deltaTime))
      (timestamp inputs) (by
        intro k a ha
        rw [List.getElem?_map] at ha
        obtain ⟨r, hr, hra⟩ := Option.map_eq_some'.mp ha
        have hk : k < (App.run E (initialApp E width height) inputs).frames.length := by
          by_contra hc
          rw [List.getElem?_eq_none (by omega)] at hr
          simp at hr
        rw [← hra, (key k r hr).1, hfl k (by omega), hfl (k + 1) (by omega), (hex k hk).2])
    rw [hs, List.length_map, t0, sub_zero]
  · intro hmono r hr
    obtain ⟨k, hk, hkr⟩ := List.getElem_of_mem hr
    have hget : (App.run E (initialApp E width height) inputs).frames[k]? = some r := by
      rw [List.getElem?_eq_getElem hk, hkr]
    rw [(key k r hget).1]
    apply toFloat32_nonneg
    have hnn := timestamp_nonneg inputs _ hmono k (by omega)
    have := toFloat32_mono hnn (hmono k hk)
    linarith

/-- Witness for `elapsed_is_float_difference`: two iterations at clock values 1 and 2, `W`
down in the first; the one `move` call gets 1, which is `1 - 0`. -/
theorem elapsed_is_float_difference_witness :
    ((App.run recording sampleApp [forwardInput, idleInput]).frames.map
        (fun r => moveElapsed r.inputCalls)) = [[1], []] ∧
      (App.run recording sampleApp [forwardInput, idleInput]).frames.length ≤ 2 ∧
      timestamp [forwardInput, idleInput] 1 - timestamp [forwardInput, idleInput] 0 = 1 :=
  ⟨by simp [App.run, frame, sampleApp, initialApp, forwardInput, idleInput, noKeys, tick,
      processInput, cameraCall, moveElapsed, glfwPollEvents, toFloat32_one],
    (elapsed_is_float_difference recording 1920 1080 [forwardInput, idleInput]).1,
    by simp [timestamp, forwardInput, idleInput]⟩

/-! ## Mouse look -/

theorem mouseEvents_initialised {Cam Mat : Type} (E : Collab Cam Mat) (ps : List (ℚ × ℚ)) :
    ∀ (app : App Cam) (last : ℚ × ℚ),
      app.mouseStatics = some { firstMouse := false, lastX := last.1, lastY := last.2 } →
      lookDeltas (mouseEvents E app ps).2 = stepDeltas last ps := by
  induction ps with
  | nil => intro app last _; rfl
  | cons p ps ih =>
    intro app last h
    have h2 := ih (mouse_callback E app p.1 p.2).1 p (by simp [mouse_callback, cameraCall, h])
    simp only [mouseEvents, stepDeltas]
    have h3 : (mouse_callback E app p.1 p.2).2 =
        [.mouse_movement (p.1 - last.1) (last.2 - p.2)] := by
      simp [mouse_callback, cameraCall, h]
    rw [h3]
    simp [lookDeltas, h2]

theorem stepDeltas_getElem? (ps : List (ℚ × ℚ)) :
    ∀ (last : ℚ × ℚ) (k : Nat) (p : ℚ × ℚ), ps[k]? = some p →
      (stepDeltas last ps)[k]? =
        some (p.1 - ((last :: ps).getD k (0, 0)).1, ((last :: ps).getD k (0, 0)).2 - p.2) := by
  induction ps with
  | nil => intro last k p h; simp at h
  | cons q qs ih =>
    intro last k p h
    cases k with
    | zero =>
      simp only [List.getElem?_cons_zero, Option.some.injEq] at h
      subst h
      simp [stepDeltas]
    | succ k =>
      simp only [List.getElem?_cons_succ] at h
      have := ih q k p h
      simpa [stepDeltas] using this

theorem sumDeltas_stepDeltas (ps : List (ℚ × ℚ)) :
    ∀ last : ℚ × ℚ,
      sumDeltas (stepDeltas last ps) =
        ((ps.getLastD last).1 - last.1, last.2 - (ps.getLastD last).2) := by
  induction ps with
  | nil => intro last; simp [stepDeltas, sumDeltas]
  | cons q qs ih =>
    intro last
    simp only [stepDeltas, sumDeltas, ih q]
    cases qs with
    | nil => simp
    | cons a as => simp [List.getLastD]

/-- C10: for pointer positions `(x_0, y_0), ..., (x_n, y_n)` delivered to `mouse_callback`
from its first call on, whatever the window size, the first call passes the look delta
`(0, 0)`, call `k ≥ 1` passes `(x_k - x_(k-1), y_(k-1) - y_k)`, and the deltas passed sum to
`(x_n - x_0, y_0 - y_n)`. -/
theorem mouse_look_deltas {Cam Mat : Type} (E : Collab Cam Mat) (app : App Cam)
    (h : app.mouseStatics = none) (p0 : ℚ × ℚ) (ps : List (ℚ × ℚ)) :
    (lookDeltas (mouseEvents E app (p0 :: ps)).2).length = (p0 :: ps).length ∧
      (lookDeltas (mouseEvents E app (p0 :: ps)).2)[0]? = some (0, 0) ∧
      (∀ (k : Nat) (p q : ℚ × ℚ), (p0 :: ps)[k]? = some p → (p0 :: ps)[k + 1]? = some q →
        (lookDeltas (mouseEvents E app (p0 :: ps)).2)[k + 1]? = some (q.1 - p.1, p.2 - q.2)) ∧
      sumDeltas (lookDeltas (mouseEvents E app (p0 :: ps)).2) =
        (((p0 :: ps).getLastD p0).1 - p0.1, p0.2 - ((p0 :: ps).getLastD p0).2) := by
  have hfirst : (mouse_callback E app p0.1 p0.2).2 = [.mouse_movement 0 0] := by
    simp [mouse_callback, cameraCall, h]
  have hrest := mouseEvents_initialised E ps (mouse_callback E app p0.1 p0.2).1 p0
    (by simp [mouse_callback, cameraCall, h])
  have hall : lookDeltas (mouseEvents E app (p0 :: ps)).2 = (0, 0) :: stepDeltas p0 ps := by
    simp only [mouseEvents]
    rw [hfirst]
    simp [lookDeltas, hrest]
  have hlen : ∀ (l : List (ℚ × ℚ)) (a : ℚ × ℚ), (stepDeltas a l).length = l.length := by
    intro l
    induction l with
    | nil => intro a; rfl
    | cons b l ih => intro a; simp [stepDeltas, ih]
  rw [hall]
  refine ⟨by simp [hlen], by simp, ?_, ?_⟩
  · intro k p q hp hq
    simp only [List.getElem?_cons_succ] at hq ⊢
    rw [stepDeltas_getElem? ps p0 k q hq]
    have : (p0 :: ps).getD k (0, 0) = p := by
      simp [List.getD_eq_getElem?_getD, hp]
    rw [this]
  · simp only [sumDeltas, sumDeltas_stepDeltas]
    cases ps with
    | nil => simp
    | cons a as => simp [List.getLastD]

/-- Witness for `mouse_look_deltas`: three pointer positions from the initial state. -/
theorem mouse_look_deltas_witness :
    sampleApp.mouseStatics = none ∧
      sumDeltas (lookDeltas (mouseEvents recording sampleApp [(10, 20), (13, 18), (11, 25)]).2) =
        (((([(10, 20), (13, 18), (11, 25)] : List (ℚ × ℚ)).getLastD (10, 20)).1 - 10,
          20 - (([(10, 20), (13, 18), (11, 25)] : List (ℚ × ℚ)).getLastD (10, 20)).2)) :=
  ⟨rfl, (mouse_look_deltas recording sampleApp rfl (10, 20) [(13, 18), (11, 25)]).2.2.2⟩

end GLGrass
